import Mathlib

/-!
Shallow embedding of the Bayesian change-point pipeline
(`src/change_point_model.py`, `src/event_analyzer.py`,
`src/time_series_analysis.py`) of the KAIM_Week11 repository.

Conventions of the embedding:
* numpy/pandas floating-point scalars are modelled as rationals (`ℚ`);
  the properties at stake (index arithmetic, quantile interpolation,
  counting, thresholds) are exact and do not depend on rounding error;
* calendar dates (`pd.DatetimeIndex`, event dates) are modelled as
  integers counting days, so a `DatetimeIndex` is a `List ℤ`;
* a Python exception is modelled as the `Except`/`Option` error branch;
* `np.round` is round-half-to-even, Python `int()` is truncation toward
  zero, `np.quantile` is the default linear-interpolation method on the
  sorted data; each is defined below exactly with those semantics.
-/

/-- Python exceptions that the embedded code can raise. -/
inductive PyError where
  | valueError
  | typeError
  | indexError
  | invalidInputError
  | insufficientDataError
  deriving Repr, DecidableEq

/-- `⌊x⌋` computed on the rational representation, as numpy floors a
float; agrees with `Int.floor` (proved below). -/
def zfloor (x : ℚ) : ℤ := x.num / x.den

/-- Python `int()` applied to a float: truncation toward zero. -/
def ztrunc (x : ℚ) : ℤ := if 0 ≤ x then zfloor x else -(zfloor (-x))

/-- `np.round` at one scalar: round half to even. -/
def npRound (x : ℚ) : ℤ :=
  let f := zfloor x
  let r := x - (f : ℚ)
  if r < 1/2 then f
  else if 1/2 < r then f + 1
  else if f % 2 = 0 then f else f + 1

/-- The ascending sort used by `np.median` / `np.quantile`. -/
def npSort (l : List ℚ) : List ℚ := l.insertionSort (· ≤ ·)

/-- `np.median`: middle element of the sorted data (odd length), or the
mean of the two middle elements (even length). Empty input is NaN in
numpy; theorems assume nonempty input. -/
def npMedian (l : List ℚ) : ℚ :=
  let s := npSort l
  let n := l.length
  if n % 2 = 1 then s.getD (n / 2) 0
  else (s.getD (n / 2 - 1) 0 + s.getD (n / 2) 0) / 2

/-- Linear interpolation into a sorted list at fractional position `h`
(numpy's default quantile method): value `s[⌊h⌋] + (h-⌊h⌋)·(s[⌊h⌋+1] - s[⌊h⌋])`,
with the out-of-range upper neighbour defaulting to the lower one. -/
def interpAt (s : List ℚ) (h : ℚ) : ℚ :=
  let i := (zfloor h).toNat
  let a := s.getD i 0
  let b := s.getD (i + 1) a
  a + (h - (zfloor h : ℚ)) * (b - a)

/-- `np.quantile(l, q)` with the default linear method. -/
def npQuantile (l : List ℚ) (q : ℚ) : ℚ :=
  interpAt (npSort l) (q * ((l.length : ℚ) - 1))

/-- `np.mean` of a list of scalars. -/
def npMean (l : List ℚ) : ℚ := l.sum / (l.length : ℚ)

/-- `np.mean` of a boolean array obtained by testing `p` pointwise:
the mean of the 0/1 indicator values. -/
def fracP (p : ℚ → Bool) (l : List ℚ) : ℚ :=
  npMean (l.map (fun x => if p x then (1 : ℚ) else 0))

/-- Positional indexing `dates[i]` on a pandas `DatetimeIndex` (modelled
as `List ℤ`): Python-style — a negative index at least `-len` wraps to
`len + i`, anything else out of range raises `IndexError` (`none`). -/
def pandasGet (l : List ℤ) (i : ℤ) : Option ℤ :=
  if 0 ≤ i ∧ i < l.length then some (l.getD i.toNat 0)
  else if -(l.length : ℤ) ≤ i ∧ i < 0 then some (l.getD (l.length + i).toNat 0)
  else none

/-! ## `SingleChangePointModel.__init__` and `build_model` -/

/-- The state stored by `SingleChangePointModel.__init__`: the data, the
aligned dates, and the not-yet-built model. -/
structure CPModel where
  data : List ℚ
  dates : List ℤ
  model : Option Unit
  deriving Repr, DecidableEq

/-- `SingleChangePointModel.__init__`: raises `ValueError` when the data
and date lengths differ, otherwise stores both unchanged with no model
built. -/
def initModel (data : List ℚ) (dates : List ℤ) : Except PyError CPModel :=
  if data.length ≠ dates.length then .error .valueError
  else .ok { data := data, dates := dates, model := none }

/-- The prior specification that `build_model` declares: a continuous
`Uniform(30, n-30)` break location, `Normal(0, 0.05)` regime means and
`HalfNormal(0.05)` regime scales. -/
structure ModelSpec where
  tauLower : ℤ
  tauUpper : ℤ
  muMu : ℚ
  muSigma : ℚ
  sigmaSigma : ℚ
  deriving Repr, DecidableEq

/-- `SingleChangePointModel.build_model`: performs no length validation;
always returns the prior specification with `tau_raw ~ Uniform(30, n_obs-30)`. -/
def build_model (m : CPModel) : ModelSpec :=
  { tauLower := 30
    tauUpper := (m.data.length : ℤ) - 30
    muMu := 0
    muSigma := 1/20
    sigmaSigma := 1/20 }

/-- The pipeline prefix that runs before any sampling attempt:
construct the model object, then build the PyMC model. -/
def buildPipeline (data : List ℚ) (dates : List ℤ) : Except PyError ModelSpec :=
  (initModel data dates).map build_model

/-! ## `diagnose_convergence` -/

/-- The five tracked parameters of the change-point model. -/
inductive Param where
  | tau | mu1 | mu2 | sigma1 | sigma2
  deriving Repr, DecidableEq

/-- The tracked-parameter list passed to `az.summary` as `var_names`. -/
def paramList : List Param := [.tau, .mu1, .mu2, .sigma1, .sigma2]

/-- `diagnose_convergence`'s returned dictionary (minus the raw summary
table): worst R-hat, worst bulk ESS, and the convergence verdict. -/
structure ConvergenceReport where
  rHatMax : ℚ
  essMin : ℚ
  converged : Bool
  deriving Repr, DecidableEq

/-- `SingleChangePointModel.diagnose_convergence`, taking the summary
table as the per-parameter `r_hat` and `ess_bulk` columns: maximises
R-hat, minimises bulk ESS over {tau, mu1, mu2, sigma1, sigma2}, and sets
`converged := r_hat_max < 1.05 ∧ ess_min > 200`. -/
def diagnose_convergence (rhat essBulk : Param → ℚ) : ConvergenceReport :=
  let rMax := max (rhat .tau) (max (rhat .mu1) (max (rhat .mu2)
      (max (rhat .sigma1) (rhat .sigma2))))
  let eMin := min (essBulk .tau) (min (essBulk .mu1) (min (essBulk .mu2)
      (min (essBulk .sigma1) (essBulk .sigma2))))
  { rHatMax := rMax
    essMin := eMin
    converged := decide (rMax < 21/20 ∧ 200 < eMin) }

/-! ## `extract_change_point_date` -/

/-- The result dictionary of `extract_change_point_date` (minus the raw
sample echo): median index, its calendar date, and the credible-interval
dates. -/
structure CPEstimate where
  modeIndex : ℤ
  modeDate : ℤ
  ciStart : ℤ
  ciEnd : ℤ
  deriving Repr, DecidableEq

/-- `int(np.round(np.median(tau_samples)))`. -/
def tauModeIdx (samples : List ℚ) : ℤ := npRound (npMedian samples)

/-- `int(np.quantile(tau_samples, (1 - ci) / 2))`. -/
def tauLoIdx (samples : List ℚ) (ci : ℚ) : ℤ :=
  ztrunc (npQuantile samples ((1 - ci) / 2))

/-- `int(np.quantile(tau_samples, 1 - (1 - ci) / 2))`. -/
def tauHiIdx (samples : List ℚ) (ci : ℚ) : ℤ :=
  ztrunc (npQuantile samples (1 - (1 - ci) / 2))

/-- `SingleChangePointModel.extract_change_point_date`: maps the pooled
tau samples to the date at the rounded median index and the dates at the
truncated 2.5% / 97.5% quantile indices, indexing the date axis directly
(in the source evaluation order), with no clamping. -/
def extract_change_point_date (dates : List ℤ) (samples : List ℚ)
    (ci : ℚ := 19/20) : Option CPEstimate := do
  let tauMode := tauModeIdx samples
  let tauDate ← pandasGet dates tauMode
  let ciS ← pandasGet dates (tauLoIdx samples ci)
  let ciE ← pandasGet dates (tauHiIdx samples ci)
  some { modeIndex := tauMode, modeDate := tauDate, ciStart := ciS, ciEnd := ciE }

/-! ## `quantify_impact` -/

/-- The impact dictionary returned by `quantify_impact`; the source dict
has exactly these keys — in particular there is a `prob_vol_increase`
but no vol-decrease probability. -/
structure ImpactSummary where
  meanShiftMedian : ℚ
  meanShiftCILo : ℚ
  meanShiftCIHi : ℚ
  probMeanIncrease : ℚ
  probMeanDecrease : ℚ
  volShiftMedian : ℚ
  volShiftCILo : ℚ
  volShiftCIHi : ℚ
  probVolIncrease : ℚ
  deriving Repr, DecidableEq

/-- `SingleChangePointModel.quantify_impact` on the flattened posterior
columns: per-draw shifts `mu2 - mu1` and `sigma2 - sigma1` (index-paired
via `zipWith`), medians, 2.5/97.5 percentile bands, and the threshold
probabilities `mean(shift > 0.01)`, `mean(shift < -0.01)`,
`mean(vol_shift > 0.005)`. -/
def quantify_impact (mu1 mu2 sigma1 sigma2 : List ℚ) : ImpactSummary :=
  let meanShift := List.zipWith (· - ·) mu2 mu1
  let volShift := List.zipWith (· - ·) sigma2 sigma1
  { meanShiftMedian := npMedian meanShift
    meanShiftCILo := npQuantile meanShift (1/40)
    meanShiftCIHi := npQuantile meanShift (39/40)
    probMeanIncrease := fracP (fun x => decide (1/100 < x)) meanShift
    probMeanDecrease := fracP (fun x => decide (x < -(1/100))) meanShift
    volShiftMedian := npMedian volShift
    volShiftCILo := npQuantile volShift (1/40)
    volShiftCIHi := npQuantile volShift (39/40)
    probVolIncrease := fracP (fun x => decide (1/200 < x)) volShift }

/-! ## `EventImpactAnalyzer` -/

/-- One record of `associate_change_points`' result list: the event date
plus the computed `days_from_cp` and `proximity_score` columns. -/
structure EventMatch where
  date : ℤ
  daysFromCP : ℤ
  proximityScore : ℚ
  deriving Repr, DecidableEq

/-- The descending-score order used by
`sort_values('proximity_score', ascending=False)`. -/
def scoreGE (a b : EventMatch) : Prop := b.proximityScore ≤ a.proximityScore

instance : DecidableRel scoreGE := fun a b =>
  inferInstanceAs (Decidable (b.proximityScore ≤ a.proximityScore))

instance : IsTotal EventMatch scoreGE :=
  ⟨fun a b => le_total b.proximityScore a.proximityScore⟩

instance : IsTrans EventMatch scoreGE :=
  ⟨fun _ _ _ h h' => le_trans h' h⟩

/-- `EventImpactAnalyzer.associate_change_points`: keep events dated in
`[cp - windowDays, cp + windowDays]`, attach `days_from_cp = |date - cp|`
and `proximity_score = 1 - days/windowDays`, and sort by descending
proximity score. Event dates are whole days (`ℤ`). -/
def associate_change_points (events : List ℤ) (cp : ℤ) (windowDays : ℤ) :
    List EventMatch :=
  let inWindow := events.filter
    (fun d => decide (cp - windowDays ≤ d) && decide (d ≤ cp + windowDays))
  if inWindow.isEmpty then []
  else
    let scored := inWindow.map (fun d =>
      { date := d
        daysFromCP := |d - cp|
        proximityScore := 1 - (((|d - cp| : ℤ) : ℚ) / ((windowDays : ℤ) : ℚ)) })
    scored.insertionSort scoreGE

/-- The directional word chosen inside
`EventImpactAnalyzer.quantify_event_impact`: "increase" when
`prob_mean_increase > 0.9`, else "decrease" when
`prob_mean_decrease > 0.9`, else the neutral "shift". -/
def narrativeDirection (impact : ImpactSummary) : String :=
  if impact.probMeanIncrease > 9/10 then "increase"
  else if impact.probMeanDecrease > 9/10 then "decrease"
  else "shift"

/-! ## `TimeSeriesAnalyzer.compute_log_returns` -/

/-- The extended-real value of one entry of
`np.log(price / price.shift(1))`, keyed by the consecutive price pair.
A positive ratio gives a finite log, recorded by its ratio `fin r`
(the value is `ln r`); a zero ratio gives `log 0 = -inf`; a positive
value over a zero predecessor gives `log (+inf) = +inf`; a negative
ratio, `0/0`, or a negative value over zero gives NaN. -/
inductive LogVal where
  | fin (ratio : ℚ)
  | neginf
  | posinf
  | nan
  deriving Repr, DecidableEq

/-- Whether a `LogVal` is NaN (what `dropna` removes: `±inf` stay). -/
def LogVal.isNan : LogVal → Bool
  | .nan => true
  | _ => false

/-- The log of the float ratio `cur / prev` (IEEE semantics for the
zero-denominator cases). -/
def logRatio (prev cur : ℚ) : LogVal :=
  if prev = 0 then (if 0 < cur then .posinf else .nan)
  else if 0 < cur / prev then .fin (cur / prev)
  else if cur / prev = 0 then .neginf
  else .nan

/-- `TimeSeriesAnalyzer.compute_log_returns`:
`np.log(price / price.shift(1)).dropna()` drops the first entry (NaN
from the shift) and every NaN produced by an ill-defined ratio, then
`log_returns.index = self.df['Date'].iloc[1:]` re-assigns an index of
length `n - 1` — which raises a length-mismatch `ValueError` whenever
`dropna` removed an interior entry. -/
def compute_log_returns (prices : List ℚ) : Except PyError (List LogVal) :=
  let pairs := prices.zip prices.tail
  let vals := pairs.map (fun p => logRatio p.1 p.2)
  let kept := vals.filter (fun v => !v.isNan)
  if kept.length = prices.length - 1 then .ok kept else .error .valueError

/-! ## Helper lemmas -/

theorem zfloor_eq (x : ℚ) : zfloor x = ⌊x⌋ := (Rat.floor_def).symm

theorem zfloor_mono {x y : ℚ} (h : x ≤ y) : zfloor x ≤ zfloor y := by
  rw [zfloor_eq, zfloor_eq]; exact Int.floor_mono h

theorem zfloor_le_npRound (x : ℚ) : zfloor x ≤ npRound x := by
  dsimp only [npRound]
  split_ifs <;> omega

theorem ztrunc_of_nonneg {x : ℚ} (h : 0 ≤ x) : ztrunc x = zfloor x := if_pos h

theorem getD_irrel {α : Type*} (s : List α) (j : ℕ) (h : j < s.length) (d d' : α) :
    s.getD j d = s.getD j d' := by
  rw [List.getD_eq_getElem?_getD, List.getD_eq_getElem?_getD,
    List.getElem?_eq_getElem h]
  rfl

theorem sorted_getD_mono {α : Type*} [Preorder α] {s : List α}
    (hs : s.Sorted (· ≤ ·)) {i j : ℕ} (hij : i ≤ j) (hj : j < s.length) (d : α) :
    s.getD i d ≤ s.getD j d := by
  have hi : i < s.length := lt_of_le_of_lt hij hj
  rw [List.getD_eq_getElem?_getD, List.getD_eq_getElem?_getD,
    List.getElem?_eq_getElem hi, List.getElem?_eq_getElem hj]
  exact hs.rel_get_of_le (by exact hij)

theorem fracP_eq (p : ℚ → Bool) (l : List ℚ) :
    fracP p l = (l.countP p : ℚ) / (l.length : ℚ) := by
  unfold fracP npMean
  rw [List.length_map]
  congr 1
  induction l with
  | nil => simp
  | cons a t ih =>
    rw [List.map_cons, List.sum_cons, ih, List.countP_cons]
    by_cases h : p a
    · simp only [h, if_true, List.sum_cons, ih]
      push_cast
      ring
    · simp [h, ih]

/-! ## Claim theorems: constructor, build, diagnostics, impact probabilities -/

/-- C10: constructing the change-point model with data and date axes of
differing lengths raises `ValueError` before any model is built; with
matching lengths, construction succeeds storing the data and dates
unchanged (and no model yet). -/
theorem initModel_length_validation (data : List ℚ) (dates : List ℤ) :
    (data.length ≠ dates.length → initModel data dates = .error .valueError) ∧
    (data.length = dates.length →
      initModel data dates = .ok { data := data, dates := dates, model := none }) := by
  constructor
  · intro h
    simp [initModel, h]
  · intro h
    simp [initModel, h]

/-- Witness for C10 at concrete inputs of lengths 1 ≠ 0 and 1 = 1. -/
theorem initModel_length_validation_witness :
    ([(1 : ℚ)].length ≠ ([] : List ℤ).length ∧
      initModel [1] [] = .error .valueError) ∧
    ([(1 : ℚ)].length = [(5 : ℤ)].length ∧
      initModel [1] [5] = .ok { data := [1], dates := [5], model := none }) :=
  ⟨⟨by simp, (initModel_length_validation [1] []).1 (by simp)⟩,
   ⟨rfl, (initModel_length_validation [1] [5]).2 rfl⟩⟩

/-- C3 counterexample: a 40-point series (margin 30) does not raise
`InsufficientDataError` before sampling — the pre-sampling pipeline
returns the built prior specification `Uniform(30, 10)` successfully. -/
theorem build_forty_points_no_error :
    buildPipeline (List.replicate 40 0) ((List.range 40).map Int.ofNat) =
      .ok { tauLower := 30, tauUpper := 10, muMu := 0,
            muSigma := 1/20, sigmaSigma := 1/20 } := by
  norm_num [buildPipeline, initModel, build_model, Except.map]

/-- C3 amended: for every series shorter than 60 points (twice the
break-location margin 30) with aligned dates, the pre-sampling pipeline
raises no error at all; it builds a break-location prior
`Uniform(30, n-30)` whose upper bound lies strictly below its lower
bound, so the failure can only surface inside the sampler. -/
theorem build_short_series_no_error (data : List ℚ) (dates : List ℤ)
    (hlen : data.length = dates.length) (hshort : data.length < 60) :
    buildPipeline data dates =
      .ok { tauLower := 30, tauUpper := (data.length : ℤ) - 30, muMu := 0,
            muSigma := 1/20, sigmaSigma := 1/20 } ∧
    (data.length : ℤ) - 30 < 30 := by
  constructor
  · simp [buildPipeline, initModel, hlen, build_model, Except.map]
  · omega

/-- Witness for C3 at the concrete 40-point, 40-date input. -/
theorem build_short_series_no_error_witness :
    ((List.replicate 40 (0 : ℚ)).length = ((List.range 40).map Int.ofNat).length ∧
      (List.replicate 40 (0 : ℚ)).length < 60) ∧
    (buildPipeline (List.replicate 40 0) ((List.range 40).map Int.ofNat) =
      .ok { tauLower := 30, tauUpper := ((List.replicate 40 (0 : ℚ)).length : ℤ) - 30,
            muMu := 0, muSigma := 1/20, sigmaSigma := 1/20 } ∧
      ((List.replicate 40 (0 : ℚ)).length : ℤ) - 30 < 30) :=
  ⟨⟨by simp, by simp⟩,
   build_short_series_no_error (List.replicate 40 0)
     ((List.range 40).map Int.ofNat) (by simp) (by simp)⟩

/-- C7: `quantify_impact` reports `probMeanIncrease` as the fraction of
index-paired mean-shift samples `mu2 - mu1` strictly above `0.01`, and
`probMeanDecrease` as the fraction strictly below `-0.01`. -/
theorem quantify_impact_mean_probs (mu1 mu2 sigma1 sigma2 : List ℚ) :
    (quantify_impact mu1 mu2 sigma1 sigma2).probMeanIncrease =
      (((List.zipWith (· - ·) mu2 mu1).countP fun x => decide (1/100 < x) : ℕ) : ℚ) /
        (((List.zipWith (· - ·) mu2 mu1).length : ℕ) : ℚ) ∧
    (quantify_impact mu1 mu2 sigma1 sigma2).probMeanDecrease =
      (((List.zipWith (· - ·) mu2 mu1).countP fun x => decide (x < -(1/100)) : ℕ) : ℚ) /
        (((List.zipWith (· - ·) mu2 mu1).length : ℕ) : ℚ) :=
  ⟨fracP_eq _ _, fracP_eq _ _⟩

/-- C9: `quantify_impact` reports `probVolIncrease` as the fraction of
index-paired volatility-shift samples `sigma2 - sigma1` strictly above
`0.005`, a threshold distinct from the mean-shift threshold `0.01`; the
returned record carries no vol-decrease probability field. -/
theorem quantify_impact_vol_prob (mu1 mu2 sigma1 sigma2 : List ℚ) :
    (quantify_impact mu1 mu2 sigma1 sigma2).probVolIncrease =
      (((List.zipWith (· - ·) sigma2 sigma1).countP fun x => decide (1/200 < x) : ℕ) : ℚ) /
        (((List.zipWith (· - ·) sigma2 sigma1).length : ℕ) : ℚ) ∧
    (1/200 : ℚ) ≠ 1/100 :=
  ⟨fracP_eq _ _, by norm_num⟩

/-- C8: the convergence verdict holds exactly when every tracked
parameter's R-hat is strictly below 1.05 and every tracked parameter's
bulk ESS is strictly above 200 — i.e. max R-hat < 1.05 and
min ESS > 200 over {tau, mu1, mu2, sigma1, sigma2}. -/
theorem diagnose_convergence_criterion (rhat essBulk : Param → ℚ) :
    (diagnose_convergence rhat essBulk).converged = true ↔
      ((∀ p ∈ paramList, rhat p < 21/20) ∧ (∀ p ∈ paramList, 200 < essBulk p)) := by
  simp only [diagnose_convergence, decide_eq_true_eq, paramList,
    List.mem_cons, List.not_mem_nil, or_false, max_lt_iff, lt_min_iff]
  constructor
  · rintro ⟨⟨h1, h2, h3, h4, h5⟩, ⟨e1, e2, e3, e4, e5⟩⟩
    constructor
    · rintro p (rfl | rfl | rfl | rfl | rfl) <;> assumption
    · rintro p (rfl | rfl | rfl | rfl | rfl) <;> assumption
  · rintro ⟨hr, he⟩
    exact ⟨⟨hr _ (by simp), hr _ (by simp), hr _ (by simp), hr _ (by simp),
            hr _ (by simp)⟩,
           ⟨he _ (by simp), he _ (by simp), he _ (by simp), he _ (by simp),
            he _ (by simp)⟩⟩

/-! ## Claim theorems: posterior-to-date extraction -/

theorem extract_eq_of_inRange (dates : List ℤ) (samples : List ℚ) (ci : ℚ)
    (hm0 : 0 ≤ tauModeIdx samples) (hm1 : tauModeIdx samples < (dates.length : ℤ))
    (hl0 : 0 ≤ tauLoIdx samples ci) (hl1 : tauLoIdx samples ci < (dates.length : ℤ))
    (hh0 : 0 ≤ tauHiIdx samples ci) (hh1 : tauHiIdx samples ci < (dates.length : ℤ)) :
    extract_change_point_date dates samples ci =
      some { modeIndex := tauModeIdx samples
             modeDate := dates.getD (tauModeIdx samples).toNat 0
             ciStart := dates.getD (tauLoIdx samples ci).toNat 0
             ciEnd := dates.getD (tauHiIdx samples ci).toNat 0 } := by
  simp [extract_change_point_date, pandasGet, hm0, hm1, hl0, hl1, hh0, hh1]

/-- C1 counterexample: with three dates and the pooled tau samples all at
5, the rounded median index 5 falls outside [0, 2]; the call fails
(IndexError, modelled as `none`) instead of clamping into the range. -/
theorem extract_out_of_range_fails :
    tauModeIdx [5] = 5 ∧ (2 : ℤ) < 5 ∧
    extract_change_point_date [0, 1, 2] [5] = none := by
  refine ⟨?_, by norm_num, ?_⟩
  · norm_num [tauModeIdx, npRound, npMedian, npSort, zfloor,
      List.insertionSort, List.orderedInsert]
  · norm_num [extract_change_point_date, tauModeIdx, tauLoIdx, tauHiIdx, npRound,
      npMedian, npQuantile, npSort, interpAt, zfloor, ztrunc, pandasGet,
      List.insertionSort, List.orderedInsert, Option.bind]

/-- C1 amended: `extract_change_point_date` performs no clamping — when
the rounded-median and truncated-quantile indices all lie inside
[0, len(dates)-1] they are used to index the date axis directly, and
when the rounded median index is at least len(dates) the call fails
(IndexError) rather than clamping. -/
theorem extract_change_point_date_no_clamping (dates : List ℤ) (samples : List ℚ)
    (ci : ℚ) :
    ((0 ≤ tauModeIdx samples ∧ tauModeIdx samples < (dates.length : ℤ) ∧
      0 ≤ tauLoIdx samples ci ∧ tauLoIdx samples ci < (dates.length : ℤ) ∧
      0 ≤ tauHiIdx samples ci ∧ tauHiIdx samples ci < (dates.length : ℤ)) →
      extract_change_point_date dates samples ci =
        some { modeIndex := tauModeIdx samples
               modeDate := dates.getD (tauModeIdx samples).toNat 0
               ciStart := dates.getD (tauLoIdx samples ci).toNat 0
               ciEnd := dates.getD (tauHiIdx samples ci).toNat 0 }) ∧
    ((dates.length : ℤ) ≤ tauModeIdx samples →
      extract_change_point_date dates samples ci = none) := by
  constructor
  · rintro ⟨h1, h2, h3, h4, h5, h6⟩
    exact extract_eq_of_inRange dates samples ci h1 h2 h3 h4 h5 h6
  · intro h
    have h0 : (0 : ℤ) ≤ tauModeIdx samples :=
      le_trans (Int.natCast_nonneg dates.length) h
    simp [extract_change_point_date, pandasGet, not_lt.mpr h, not_lt.mpr h0]

/-- Witness for C1: the in-range branch at dates [5,7,9] with samples
[1] (all indices 1), and the failing branch at dates [0,1,2] with
samples [5] (median index 5 ≥ 3). -/
theorem extract_change_point_date_no_clamping_witness :
    (extract_change_point_date [5, 7, 9] [1] (19/20) =
      some { modeIndex := tauModeIdx [1]
             modeDate := [(5 : ℤ), 7, 9].getD (tauModeIdx [1]).toNat 0
             ciStart := [(5 : ℤ), 7, 9].getD (tauLoIdx [1] (19/20)).toNat 0
             ciEnd := [(5 : ℤ), 7, 9].getD (tauHiIdx [1] (19/20)).toNat 0 }) ∧
    (extract_change_point_date [0, 1, 2] [5] (19/20) = none) :=
  ⟨(extract_change_point_date_no_clamping [5, 7, 9] [1] (19/20)).1
      (by norm_num [tauModeIdx, tauLoIdx, tauHiIdx, npRound, npMedian, npQuantile,
        npSort, interpAt, zfloor, ztrunc, List.insertionSort, List.orderedInsert]),
   (extract_change_point_date_no_clamping [0, 1, 2] [5] (19/20)).2
      (by norm_num [tauModeIdx, npRound, npMedian, npSort, zfloor,
        List.insertionSort, List.orderedInsert])⟩

theorem npSort_sorted (l : List ℚ) : (npSort l).Sorted (· ≤ ·) :=
  List.sorted_insertionSort _ l

theorem npSort_length (l : List ℚ) : (npSort l).length = l.length :=
  List.length_insertionSort _ l

theorem npSort_perm (l : List ℚ) : List.Perm (npSort l) l :=
  List.perm_insertionSort _ l

theorem interpAt_mono {s : List ℚ} (hs : s.Sorted (· ≤ ·)) {h1 h2 : ℚ}
    (h0 : 0 ≤ h1) (h12 : h1 ≤ h2) (htop : h2 ≤ (s.length : ℚ) - 1) :
    interpAt s h1 ≤ interpAt s h2 := by
  have h20 : 0 ≤ h2 := le_trans h0 h12
  have hnQ : (1 : ℚ) ≤ (s.length : ℚ) := by linarith
  have hn : 1 ≤ s.length := by exact_mod_cast hnQ
  have hf10 : (0 : ℤ) ≤ zfloor h1 := by
    rw [zfloor_eq]; exact Int.floor_nonneg.mpr h0
  have hf20 : (0 : ℤ) ≤ zfloor h2 := by
    rw [zfloor_eq]; exact Int.floor_nonneg.mpr h20
  have hf12 : zfloor h1 ≤ zfloor h2 := zfloor_mono h12
  have hf2top : zfloor h2 ≤ (s.length : ℤ) - 1 := by
    rw [zfloor_eq]
    have : ((s.length : ℤ) - 1 : ℤ) = ⌊((s.length : ℚ) - 1 : ℚ)⌋ := by
      rw [show ((s.length : ℚ) - 1 : ℚ) = (((s.length : ℤ) - 1 : ℤ) : ℚ) by push_cast; ring,
        Int.floor_intCast]
    rw [this]
    exact Int.floor_mono htop
  set j1 := (zfloor h1).toNat with hj1
  set j2 := (zfloor h2).toNat with hj2
  have hj1z : (j1 : ℤ) = zfloor h1 := Int.toNat_of_nonneg hf10
  have hj2z : (j2 : ℤ) = zfloor h2 := Int.toNat_of_nonneg hf20
  have hj12 : j1 ≤ j2 := by omega
  have hj2len : j2 < s.length := by omega
  have hg1 : 0 ≤ h1 - (zfloor h1 : ℚ) := by
    rw [zfloor_eq]; exact sub_nonneg.mpr (Int.floor_le h1)
  have hg1' : h1 - (zfloor h1 : ℚ) ≤ 1 := by
    rw [zfloor_eq]
    have := Int.lt_floor_add_one h1
    push_cast at this ⊢
    linarith
  have hg2 : 0 ≤ h2 - (zfloor h2 : ℚ) := by
    rw [zfloor_eq]; exact sub_nonneg.mpr (Int.floor_le h2)
  dsimp only [interpAt]
  rw [← hj1, ← hj2]
  rcases eq_or_lt_of_le hj12 with heq | hlt
  · -- same interpolation cell: the increment is (h2 - h1) · (b - a) ≥ 0
    have hfz : zfloor h1 = zfloor h2 := by omega
    rw [heq, hfz]
    set a := s.getD j2 0 with ha
    set b := s.getD (j2 + 1) a with hb
    have hab : a ≤ b := by
      by_cases hin : j2 + 1 < s.length
      · rw [hb, getD_irrel s (j2 + 1) hin a 0]
        exact sorted_getD_mono hs (Nat.le_succ j2) hin 0
      · rw [hb, List.getD_eq_default _ _ (by omega)]
    nlinarith [mul_nonneg (sub_nonneg.mpr h12) (sub_nonneg.mpr hab)]
  · -- distinct cells: value₁ ≤ b₁ ≤ a₂ ≤ value₂ along the sorted data
    set a1 := s.getD j1 0 with ha1
    set b1 := s.getD (j1 + 1) a1 with hb1
    set a2 := s.getD j2 0 with ha2
    set b2 := s.getD (j2 + 1) a2 with hb2
    have hj1in : j1 + 1 < s.length := by omega
    have hb1eq : b1 = s.getD (j1 + 1) 0 := getD_irrel s (j1 + 1) hj1in a1 0
    have hab1 : a1 ≤ b1 := by
      rw [hb1eq]
      exact sorted_getD_mono hs (Nat.le_succ j1) hj1in 0
    have hb1a2 : b1 ≤ a2 := by
      rw [hb1eq, ha2]
      exact sorted_getD_mono hs (by omega) hj2len 0
    have hab2 : a2 ≤ b2 := by
      by_cases hin : j2 + 1 < s.length
      · rw [hb2, getD_irrel s (j2 + 1) hin a2 0]
        exact sorted_getD_mono hs (Nat.le_succ j2) hin 0
      · rw [hb2, List.getD_eq_default _ _ (by omega)]
    have hv1 : a1 + (h1 - (zfloor h1 : ℚ)) * (b1 - a1) ≤ b1 := by
      nlinarith [mul_nonneg hg1 (sub_nonneg.mpr hab1)]
    have hv2 : a2 ≤ a2 + (h2 - (zfloor h2 : ℚ)) * (b2 - a2) := by
      nlinarith [mul_nonneg hg2 (sub_nonneg.mpr hab2)]
    linarith

theorem npQuantile_mono {l : List ℚ} (hne : l ≠ []) {q1 q2 : ℚ}
    (h0 : 0 ≤ q1) (h12 : q1 ≤ q2) (h1 : q2 ≤ 1) :
    npQuantile l q1 ≤ npQuantile l q2 := by
  have hn : 1 ≤ l.length := List.length_pos.mpr hne
  have hn' : (1 : ℚ) ≤ (l.length : ℚ) := by exact_mod_cast hn
  unfold npQuantile
  apply interpAt_mono (npSort_sorted l)
  · exact mul_nonneg h0 (by linarith)
  · exact mul_le_mul_of_nonneg_right h12 (by linarith)
  · rw [npSort_length]
    nlinarith

theorem npMedian_eq_quantile (l : List ℚ) (hne : l ≠ []) :
    npMedian l = npQuantile l (1/2) := by
  have hn : 1 ≤ l.length := List.length_pos.mpr hne
  rcases Nat.even_or_odd l.length with ⟨m, hm⟩ | ⟨m, hm⟩
  · -- even length n = 2m: both sides average the two middle entries
    have hm1 : 1 ≤ m := by omega
    have hpos : (1/2 : ℚ) * ((l.length : ℚ) - 1) = (m : ℚ) - 1/2 := by
      rw [hm]; push_cast; ring
    have hfl : zfloor ((m : ℚ) - 1/2) = (m : ℤ) - 1 := by
      rw [zfloor_eq,
        show ((m : ℚ) - 1/2 : ℚ) = (((m : ℤ) - 1 : ℤ) : ℚ) + 1/2 by push_cast; ring,
        Int.floor_int_add]
      norm_num
    have htn : ((m : ℤ) - 1).toNat = m - 1 := by omega
    unfold npMedian npQuantile interpAt
    rw [hpos, hfl, htn]
    have hmod : ¬ l.length % 2 = 1 := by omega
    have hdiv : l.length / 2 = m := by omega
    simp only [hmod, if_false, hdiv]
    have hin : m - 1 + 1 < (npSort l).length := by
      rw [npSort_length]; omega
    rw [getD_irrel (npSort l) (m - 1 + 1) hin ((npSort l).getD (m - 1) 0) 0]
    have : m - 1 + 1 = m := by omega
    rw [this]
    push_cast
    ring
  · -- odd length n = 2m+1: both sides take the middle entry
    have hpos : (1/2 : ℚ) * ((l.length : ℚ) - 1) = ((m : ℤ) : ℚ) := by
      rw [hm]; push_cast; ring
    have hfl : zfloor (((m : ℤ) : ℚ)) = (m : ℤ) := by
      rw [zfloor_eq, Int.floor_intCast]
    unfold npMedian npQuantile interpAt
    rw [hpos, hfl]
    have hmod : l.length % 2 = 1 := by omega
    have hdiv : l.length / 2 = m := by omega
    have htn : ((m : ℤ)).toNat = m := by omega
    simp only [hmod, if_true, hdiv, htn]
    ring

/-- C2 counterexample: on an ascending 12-date axis with every pooled
tau sample at 10.6, the rounded median index is 11 while the truncated
97.5% quantile index is 10, so the returned calendar date (11) lies
strictly above the credible-interval end (10): the claimed
`calendarDate ≤ credibleIntervalEnd` fails. -/
theorem extract_mode_above_ci_end :
    extract_change_point_date [0, 1, 2, 3, 4, 5, 6, 7, 8, 9, 10, 11] [53/5] (19/20) =
      some { modeIndex := 11, modeDate := 11, ciStart := 10, ciEnd := 10 } ∧
    (10 : ℤ) < 11 := by
  constructor
  · norm_num [extract_change_point_date, tauModeIdx, tauLoIdx, tauHiIdx, npRound,
      npMedian, npQuantile, npSort, interpAt, zfloor, ztrunc, pandasGet,
      List.insertionSort, List.orderedInsert, Option.bind, Int.toNat]
  · norm_num

/-- C2 amended: on an ascending date axis, whenever the computed indices
are usable (nonempty pooled samples, credible mass in [0,1], nonnegative
lower quantile, median and upper indices inside the axis), the estimate
satisfies `credibleIntervalStart ≤ credibleIntervalEnd` and
`credibleIntervalStart ≤ calendarDate`; the upper inequality
`calendarDate ≤ credibleIntervalEnd` does not hold in general because the
median index is rounded while the quantile indices are truncated. -/
theorem extract_change_point_date_ci_order (dates : List ℤ) (samples : List ℚ)
    (ci : ℚ) (hs : samples ≠ []) (hci0 : 0 ≤ ci) (hci1 : ci ≤ 1)
    (hq0 : 0 ≤ npQuantile samples ((1 - ci) / 2))
    (hdates : dates.Sorted (· ≤ ·))
    (hm1 : tauModeIdx samples < (dates.length : ℤ))
    (hh1 : tauHiIdx samples ci < (dates.length : ℤ)) :
    ∃ e, extract_change_point_date dates samples ci = some e ∧
      e.ciStart ≤ e.ciEnd ∧ e.ciStart ≤ e.modeDate := by
  have hq12 : npQuantile samples ((1 - ci) / 2) ≤
      npQuantile samples (1 - (1 - ci) / 2) :=
    npQuantile_mono hs (by linarith) (by linarith) (by linarith)
  have hqm : npQuantile samples ((1 - ci) / 2) ≤ npMedian samples := by
    rw [npMedian_eq_quantile samples hs]
    exact npQuantile_mono hs (by linarith) (by linarith) (by norm_num)
  have hq20 : 0 ≤ npQuantile samples (1 - (1 - ci) / 2) := le_trans hq0 hq12
  have hlo : tauLoIdx samples ci = zfloor (npQuantile samples ((1 - ci) / 2)) :=
    ztrunc_of_nonneg hq0
  have hhi : tauHiIdx samples ci = zfloor (npQuantile samples (1 - (1 - ci) / 2)) :=
    ztrunc_of_nonneg hq20
  have hl0 : 0 ≤ tauLoIdx samples ci := by
    rw [hlo, zfloor_eq]
    exact Int.floor_nonneg.mpr hq0
  have hlo_hi : tauLoIdx samples ci ≤ tauHiIdx samples ci := by
    rw [hlo, hhi]
    exact zfloor_mono hq12
  have hlo_mode : tauLoIdx samples ci ≤ tauModeIdx samples := by
    rw [hlo]
    exact le_trans (zfloor_mono hqm) (zfloor_le_npRound _)
  have hm0 : 0 ≤ tauModeIdx samples := le_trans hl0 hlo_mode
  have hh0 : 0 ≤ tauHiIdx samples ci := le_trans hl0 hlo_hi
  have hl1 : tauLoIdx samples ci < (dates.length : ℤ) := lt_of_le_of_lt hlo_hi hh1
  refine ⟨_, extract_eq_of_inRange dates samples ci hm0 hm1 hl0 hl1 hh0 hh1, ?_, ?_⟩
  · exact sorted_getD_mono hdates (by omega) (by omega) 0
  · exact sorted_getD_mono hdates (by omega) (by omega) 0

/-- Witness for C2 at samples [1, 2], ci = 0.95, dates [10, 20, 30]:
the estimate is ⟨2, 30, 20, 20⟩, with 20 ≤ 20 and 20 ≤ 30. -/
theorem extract_change_point_date_ci_order_witness :
    (([1, 2] : List ℚ) ≠ [] ∧ (0 : ℚ) ≤ 19/20 ∧ (19/20 : ℚ) ≤ 1 ∧
      0 ≤ npQuantile [1, 2] ((1 - 19/20) / 2) ∧
      ([10, 20, 30] : List ℤ).Sorted (· ≤ ·) ∧
      tauModeIdx [1, 2] < (([10, 20, 30] : List ℤ).length : ℤ) ∧
      tauHiIdx [1, 2] (19/20) < (([10, 20, 30] : List ℤ).length : ℤ)) ∧
    (∃ e, extract_change_point_date [10, 20, 30] [1, 2] (19/20) = some e ∧
      e.ciStart ≤ e.ciEnd ∧ e.ciStart ≤ e.modeDate) :=
  ⟨⟨by simp, by norm_num, by norm_num,
    by norm_num [npQuantile, npSort, interpAt, zfloor,
      List.insertionSort, List.orderedInsert],
    by decide,
    by norm_num [tauModeIdx, npRound, npMedian, npSort, zfloor,
      List.insertionSort, List.orderedInsert],
    by norm_num [tauHiIdx, npQuantile, npSort, interpAt, zfloor, ztrunc,
      List.insertionSort, List.orderedInsert]⟩,
   extract_change_point_date_ci_order [10, 20, 30] [1, 2] (19/20)
     (by simp) (by norm_num) (by norm_num)
     (by norm_num [npQuantile, npSort, interpAt, zfloor,
       List.insertionSort, List.orderedInsert])
     (by decide)
     (by norm_num [tauModeIdx, npRound, npMedian, npSort, zfloor,
       List.insertionSort, List.orderedInsert])
     (by norm_num [tauHiIdx, npQuantile, npSort, interpAt, zfloor, ztrunc,
       List.insertionSort, List.orderedInsert])⟩

/-! ## Claim theorems: narrative direction -/

theorem countP_gt_le_of_sorted {s : List ℚ} (hs : s.Sorted (· ≤ ·)) {c : ℚ} {k : ℕ}
    (hk : k < s.length) (hle : s.getD k 0 ≤ c) :
    s.countP (fun x => decide (c < x)) ≤ s.length - (k + 1) := by
  conv_lhs => rw [← List.take_append_drop (k + 1) s]
  rw [List.countP_append]
  have h1 : (s.take (k + 1)).countP (fun x => decide (c < x)) = 0 := by
    rw [List.countP_eq_zero]
    intro x hx
    rw [List.mem_take_iff_getElem] at hx
    obtain ⟨i, hi, hxi⟩ := hx
    have hilen : i < s.length := by omega
    have hxle : x ≤ s.getD k 0 := by
      rw [← hxi, ← List.getD_eq_getElem s 0 hilen]
      exact sorted_getD_mono hs (by omega) hk 0
    simp only [decide_eq_true_eq]
    exact not_lt.mpr (le_trans hxle hle)
  rw [h1, zero_add]
  calc (s.drop (k + 1)).countP (fun x => decide (c < x))
      ≤ (s.drop (k + 1)).length := List.countP_le_length _
    _ = s.length - (k + 1) := List.length_drop _ _

theorem countP_lt_le_of_sorted {s : List ℚ} (hs : s.Sorted (· ≤ ·)) {c : ℚ} {k : ℕ}
    (hk : k < s.length) (hge : c ≤ s.getD k 0) :
    s.countP (fun x => decide (x < c)) ≤ k := by
  conv_lhs => rw [← List.take_append_drop k s]
  rw [List.countP_append]
  have h2 : (s.drop k).countP (fun x => decide (x < c)) = 0 := by
    rw [List.countP_eq_zero]
    intro x hx
    rw [List.mem_drop_iff_getElem] at hx
    obtain ⟨i, hi, hxi⟩ := hx
    have hilen : k + i < s.length := by omega
    have hxge : s.getD k 0 ≤ x := by
      rw [← hxi, ← List.getD_eq_getElem s 0 hilen]
      exact sorted_getD_mono hs (by omega) hilen 0
    simp only [decide_eq_true_eq]
    exact not_lt.mpr (le_trans hge hxge)
  rw [h2, add_zero]
  calc (s.take k).countP (fun x => decide (x < c))
      ≤ (s.take k).length := List.countP_le_length _
    _ ≤ k := by rw [List.length_take]; omega

theorem median_zero_count_bounds (l : List ℚ) (hne : l ≠ []) (hmed : npMedian l = 0) :
    2 * l.countP (fun x => decide ((1 : ℚ)/100 < x)) ≤ l.length ∧
    2 * l.countP (fun x => decide (x < -((1 : ℚ)/100))) ≤ l.length := by
  have hn : 1 ≤ l.length := List.length_pos.mpr hne
  have hs : (npSort l).Sorted (· ≤ ·) := npSort_sorted l
  have hslen : (npSort l).length = l.length := npSort_length l
  have hcg : l.countP (fun x => decide ((1 : ℚ)/100 < x)) =
      (npSort l).countP (fun x => decide ((1 : ℚ)/100 < x)) :=
    ((npSort_perm l).countP_eq _).symm
  have hcl : l.countP (fun x => decide (x < -((1 : ℚ)/100))) =
      (npSort l).countP (fun x => decide (x < -((1 : ℚ)/100))) :=
    ((npSort_perm l).countP_eq _).symm
  rcases Nat.even_or_odd l.length with ⟨m, hm⟩ | ⟨m, hm⟩
  · -- even length n = 2m: the two middle entries straddle zero
    have hm1 : 1 ≤ m := by omega
    have hmede : ((npSort l).getD (m - 1) 0 + (npSort l).getD m 0) / 2 = 0 := by
      have hmod : ¬ l.length % 2 = 1 := by omega
      have hdiv : l.length / 2 = m := by omega
      simp only [npMedian, hmod, if_false, hdiv] at hmed
      exact hmed
    have hord : (npSort l).getD (m - 1) 0 ≤ (npSort l).getD m 0 :=
      sorted_getD_mono hs (by omega) (by omega) 0
    have hlo : (npSort l).getD (m - 1) 0 ≤ 0 := by linarith
    have hhi : 0 ≤ (npSort l).getD m 0 := by linarith
    constructor
    · have hb := countP_gt_le_of_sorted hs (c := 1/100) (k := m - 1) (by omega)
        (le_trans hlo (by norm_num))
      rw [hcg]
      omega
    · have hb := countP_lt_le_of_sorted hs (c := -(1/100)) (k := m) (by omega)
        (le_trans (by norm_num) hhi)
      rw [hcl]
      omega
  · -- odd length n = 2m+1: the middle entry is zero
    have hmede : (npSort l).getD m 0 = 0 := by
      have hmod : l.length % 2 = 1 := by omega
      have hdiv : l.length / 2 = m := by omega
      simp only [npMedian, hmod, if_true, hdiv] at hmed
      exact hmed
    constructor
    · have hb := countP_gt_le_of_sorted hs (c := 1/100) (k := m) (by omega)
        (le_of_eq_of_le hmede (by norm_num))
      rw [hcg]
      omega
    · have hb := countP_lt_le_of_sorted hs (c := -(1/100)) (k := m) (by omega)
        (le_of_le_of_eq (by norm_num) hmede.symm)
      rw [hcl]
      omega

/-- C5 counterexample: an `ImpactSummary` whose `meanShiftMedian` is 0
but whose `probMeanIncrease` exceeds 0.9 makes the narrative say
"increase", not the neutral "shift" — the directional word depends only
on the probability thresholds, not on the median. -/
theorem direction_ignores_median :
    ({ meanShiftMedian := 0, meanShiftCILo := 0, meanShiftCIHi := 0,
       probMeanIncrease := 19/20, probMeanDecrease := 0,
       volShiftMedian := 0, volShiftCILo := 0, volShiftCIHi := 0,
       probVolIncrease := 0 } : ImpactSummary).meanShiftMedian = 0 ∧
    narrativeDirection
      { meanShiftMedian := 0, meanShiftCILo := 0, meanShiftCIHi := 0,
        probMeanIncrease := 19/20, probMeanDecrease := 0,
        volShiftMedian := 0, volShiftCILo := 0, volShiftCIHi := 0,
        probVolIncrease := 0 } = "increase" ∧
    "increase" ≠ "shift" := by
  refine ⟨rfl, ?_, by decide⟩
  norm_num [narrativeDirection]

/-- C5 amended: an `ImpactSummary` produced by `quantify_impact` from a
nonempty paired sample whose mean-shift median is 0 always yields the
neutral "shift" wording — a zero median forces both threshold
probabilities to be at most 1/2, below the 0.9 cutoffs. An arbitrary
`ImpactSummary` record with median 0 need not (see the counterexample). -/
theorem quantify_impact_median_zero_direction (mu1 mu2 sigma1 sigma2 : List ℚ)
    (hne : List.zipWith (· - ·) mu2 mu1 ≠ [])
    (hmed : (quantify_impact mu1 mu2 sigma1 sigma2).meanShiftMedian = 0) :
    narrativeDirection (quantify_impact mu1 mu2 sigma1 sigma2) = "shift" := by
  have hmed' : npMedian (List.zipWith (· - ·) mu2 mu1) = 0 := hmed
  obtain ⟨h1, h2⟩ := median_zero_count_bounds _ hne hmed'
  have hn : 1 ≤ (List.zipWith (· - ·) mu2 mu1).length := List.length_pos.mpr hne
  have hnQ : (0 : ℚ) < ((List.zipWith (· - ·) mu2 mu1).length : ℚ) := by
    exact_mod_cast hn
  have hpi : (quantify_impact mu1 mu2 sigma1 sigma2).probMeanIncrease ≤ 1/2 := by
    have hrw : (quantify_impact mu1 mu2 sigma1 sigma2).probMeanIncrease =
        fracP (fun x => decide ((1 : ℚ)/100 < x)) (List.zipWith (· - ·) mu2 mu1) := rfl
    rw [hrw, fracP_eq, div_le_iff hnQ]
    have hc : ((2 * (List.zipWith (· - ·) mu2 mu1).countP
        (fun x => decide ((1 : ℚ)/100 < x)) : ℕ) : ℚ) ≤
        (((List.zipWith (· - ·) mu2 mu1).length : ℕ) : ℚ) := by exact_mod_cast h1
    push_cast at hc ⊢
    linarith
  have hpd : (quantify_impact mu1 mu2 sigma1 sigma2).probMeanDecrease ≤ 1/2 := by
    have hrw : (quantify_impact mu1 mu2 sigma1 sigma2).probMeanDecrease =
        fracP (fun x => decide (x < -((1 : ℚ)/100))) (List.zipWith (· - ·) mu2 mu1) := rfl
    rw [hrw, fracP_eq, div_le_iff hnQ]
    have hc : ((2 * (List.zipWith (· - ·) mu2 mu1).countP
        (fun x => decide (x < -((1 : ℚ)/100))) : ℕ) : ℚ) ≤
        (((List.zipWith (· - ·) mu2 mu1).length : ℕ) : ℚ) := by exact_mod_cast h2
    push_cast at hc ⊢
    linarith
  have hIncNot : ¬ ((quantify_impact mu1 mu2 sigma1 sigma2).probMeanIncrease > 9/10) :=
    not_lt.mpr (le_trans hpi (by norm_num))
  have hDecNot : ¬ ((quantify_impact mu1 mu2 sigma1 sigma2).probMeanDecrease > 9/10) :=
    not_lt.mpr (le_trans hpd (by norm_num))
  simp [narrativeDirection, hIncNot, hDecNot]

/-- Witness for C5 at mean draws mu1 = [0,0], mu2 = [1,-1]: the paired
shift samples [1,-1] have median 0 and the narrative direction is
"shift". -/
theorem quantify_impact_median_zero_direction_witness :
    (List.zipWith (· - ·) [(1 : ℚ), -1] [0, 0] ≠ [] ∧
     (quantify_impact [0, 0] [1, -1] [] []).meanShiftMedian = 0) ∧
    narrativeDirection (quantify_impact [0, 0] [1, -1] [] []) = "shift" :=
  ⟨⟨by simp, by norm_num [quantify_impact, npMedian, npSort,
      List.insertionSort, List.orderedInsert]⟩,
   quantify_impact_median_zero_direction [0, 0] [1, -1] [] [] (by simp)
     (by norm_num [quantify_impact, npMedian, npSort,
       List.insertionSort, List.orderedInsert])⟩

/-! ## Claim theorems: event association -/

theorem associate_mem {events : List ℤ} {cp w : ℤ} {m : EventMatch}
    (hm : m ∈ associate_change_points events cp w) :
    ∃ d ∈ events, cp - w ≤ d ∧ d ≤ cp + w ∧
      m = { date := d, daysFromCP := |d - cp|,
            proximityScore := 1 - (((|d - cp| : ℤ) : ℚ) / ((w : ℤ) : ℚ)) } := by
  simp only [associate_change_points] at hm
  split at hm
  · exact absurd hm (List.not_mem_nil m)
  · rw [List.mem_insertionSort scoreGE, List.mem_map] at hm
    obtain ⟨d, hd, rfl⟩ := hm
    rw [List.mem_filter] at hd
    obtain ⟨hd1, hd2⟩ := hd
    simp only [Bool.and_eq_true, decide_eq_true_eq] at hd2
    exact ⟨d, hd1, hd2.1, hd2.2, rfl⟩

/-- C6: `associate_change_points` only keeps events within `windowDays`
of the change point, assigns the linear proximity score
`1 - days/windowDays` (hence 1 at distance zero, 0 at the window edge,
always within [0,1], and non-increasing in the distance), and returns
the matches sorted by descending proximity score. -/
theorem associate_change_points_spec (events : List ℤ) (cp w : ℤ) (hw : 0 < w) :
    (∀ m ∈ associate_change_points events cp w,
      0 ≤ m.daysFromCP ∧ m.daysFromCP ≤ w ∧
      m.proximityScore = 1 - (m.daysFromCP : ℚ) / (w : ℚ) ∧
      0 ≤ m.proximityScore ∧ m.proximityScore ≤ 1) ∧
    (∀ m₁ ∈ associate_change_points events cp w,
      ∀ m₂ ∈ associate_change_points events cp w,
      m₁.daysFromCP ≤ m₂.daysFromCP → m₂.proximityScore ≤ m₁.proximityScore) ∧
    (associate_change_points events cp w).Sorted scoreGE := by
  have hwQ : (0 : ℚ) < (w : ℚ) := by exact_mod_cast hw
  have key : ∀ m ∈ associate_change_points events cp w,
      0 ≤ m.daysFromCP ∧ m.daysFromCP ≤ w ∧
      m.proximityScore = 1 - (m.daysFromCP : ℚ) / (w : ℚ) := by
    intro m hm
    obtain ⟨d, _, h1, h2, rfl⟩ := associate_mem hm
    exact ⟨abs_nonneg _, abs_le.mpr ⟨by linarith, by linarith⟩, rfl⟩
  refine ⟨?_, ?_, ?_⟩
  · intro m hm
    obtain ⟨hd0, hdw, hsc⟩ := key m hm
    have hd0Q : (0 : ℚ) ≤ (m.daysFromCP : ℚ) := by exact_mod_cast hd0
    have hdwQ : (m.daysFromCP : ℚ) ≤ (w : ℚ) := by exact_mod_cast hdw
    refine ⟨hd0, hdw, hsc, ?_, ?_⟩
    · rw [hsc]
      have : (m.daysFromCP : ℚ) / (w : ℚ) ≤ 1 := (div_le_one hwQ).mpr hdwQ
      linarith
    · rw [hsc]
      have : (0 : ℚ) ≤ (m.daysFromCP : ℚ) / (w : ℚ) := div_nonneg hd0Q (le_of_lt hwQ)
      linarith
  · intro m₁ hm₁ m₂ hm₂ hdd
    obtain ⟨_, _, hs1⟩ := key m₁ hm₁
    obtain ⟨_, _, hs2⟩ := key m₂ hm₂
    rw [hs1, hs2]
    have hQ : (m₁.daysFromCP : ℚ) ≤ (m₂.daysFromCP : ℚ) := by exact_mod_cast hdd
    have hdiv : (m₁.daysFromCP : ℚ) / (w : ℚ) ≤ (m₂.daysFromCP : ℚ) / (w : ℚ) :=
      (div_le_div_right hwQ).mpr hQ
    linarith
  · simp only [associate_change_points]
    split
    · exact List.sorted_nil
    · exact List.sorted_insertionSort scoreGE _

/-- Witness for C6 at events [0, 3, 10], change point 0, window 7. -/
theorem associate_change_points_spec_witness :
    (0 : ℤ) < 7 ∧
    ((∀ m ∈ associate_change_points [0, 3, 10] 0 7,
      0 ≤ m.daysFromCP ∧ m.daysFromCP ≤ 7 ∧
      m.proximityScore = 1 - (m.daysFromCP : ℚ) / (((7 : ℤ)) : ℚ) ∧
      0 ≤ m.proximityScore ∧ m.proximityScore ≤ 1) ∧
    (∀ m₁ ∈ associate_change_points [0, 3, 10] 0 7,
      ∀ m₂ ∈ associate_change_points [0, 3, 10] 0 7,
      m₁.daysFromCP ≤ m₂.daysFromCP → m₂.proximityScore ≤ m₁.proximityScore) ∧
    (associate_change_points [0, 3, 10] 0 7).Sorted scoreGE) :=
  ⟨by norm_num, associate_change_points_spec [0, 3, 10] 0 7 (by norm_num)⟩

/-! ## Claim theorems: log-return preparation -/

theorem logRatio_pos {prev cur : ℚ} (hp : 0 < prev) (hc : 0 < cur) :
    logRatio prev cur = .fin (cur / prev) := by
  unfold logRatio
  rw [if_neg (ne_of_gt hp), if_pos (div_pos hc hp)]

/-- C4 counterexample: prices [1, 0] have the non-positive consecutive
ratio 0, yet `compute_log_returns` raises no error — `log 0 = -inf`
survives `dropna` and is returned. -/
theorem compute_log_returns_zero_ratio_no_error :
    (0 : ℚ) / 1 ≤ 0 ∧ compute_log_returns [1, 0] = .ok [.neginf] := by
  constructor
  · norm_num
  · norm_num [compute_log_returns, logRatio, LogVal.isNan, List.filter]

/-- C4 amended: `compute_log_returns` computes `ln(price[i]/price[i-1])`
per consecutive pair and drops the first point; with all-positive prices
it succeeds with one finite entry per pair (length n-1). But a
non-positive ratio never raises `InvalidInputError`: a zero ratio
propagates `-inf` silently (see the counterexample), and a NaN-producing
(negative) ratio is dropped by `dropna`, after which the index
re-assignment of length n-1 fails with a length-mismatch `ValueError`. -/
theorem compute_log_returns_spec (prices : List ℚ) :
    ((∀ x ∈ prices, 0 < x) →
      compute_log_returns prices =
        .ok ((prices.zip prices.tail).map fun p => .fin (p.2 / p.1)) ∧
      ((prices.zip prices.tail).map fun p => LogVal.fin (p.2 / p.1)).length =
        prices.length - 1) ∧
    ((∃ p ∈ prices.zip prices.tail, logRatio p.1 p.2 = .nan) →
      compute_log_returns prices = .error .valueError) := by
  have hlen : (prices.zip prices.tail).length = prices.length - 1 := by
    rw [List.length_zip, List.length_tail]
    omega
  constructor
  · intro hpos
    have hmap : (prices.zip prices.tail).map (fun p => logRatio p.1 p.2) =
        (prices.zip prices.tail).map (fun p => LogVal.fin (p.2 / p.1)) := by
      apply List.map_congr_left
      intro p hp
      exact logRatio_pos (hpos _ (List.mem_zip hp).1)
        (hpos _ (List.mem_of_mem_tail (List.mem_zip hp).2))
    have hfilter : ((prices.zip prices.tail).map
        (fun p => LogVal.fin (p.2 / p.1))).filter (fun v => !v.isNan) =
        (prices.zip prices.tail).map (fun p => LogVal.fin (p.2 / p.1)) := by
      rw [List.filter_eq_self]
      intro v hv
      rw [List.mem_map] at hv
      obtain ⟨p, _, rfl⟩ := hv
      rfl
    constructor
    · simp only [compute_log_returns]
      rw [hmap, hfilter, List.length_map, hlen, if_pos rfl]
    · rw [List.length_map, hlen]
  · rintro ⟨p, hp, hnan⟩
    have hzip : 2 ≤ prices.length := by
      rcases prices with _ | ⟨a, _ | ⟨b, t⟩⟩
      · simp at hp
      · simp at hp
      · simp
    have hmem : LogVal.nan ∈ (prices.zip prices.tail).map (fun q => logRatio q.1 q.2) :=
      List.mem_map.mpr ⟨p, hp, hnan⟩
    have hdrop : (((prices.zip prices.tail).map
        (fun q => logRatio q.1 q.2)).filter (fun v => !v.isNan)).length <
        ((prices.zip prices.tail).map (fun q => logRatio q.1 q.2)).length :=
      List.length_filter_lt_length_iff_exists.mpr ⟨.nan, hmem, by simp [LogVal.isNan]⟩
    rw [List.length_map, hlen] at hdrop
    simp only [compute_log_returns]
    rw [if_neg (by omega)]

/-- Witness for C4: all-positive prices [1, 2, 4] succeed with two
finite entries, while prices [1, -1] (negative ratio, NaN) fail with
`ValueError`. -/
theorem compute_log_returns_spec_witness :
    ((∀ x ∈ [(1 : ℚ), 2, 4], 0 < x) ∧
      (compute_log_returns [1, 2, 4] =
        .ok (([(1 : ℚ), 2, 4].zip [(1 : ℚ), 2, 4].tail).map fun p => .fin (p.2 / p.1)) ∧
      (([(1 : ℚ), 2, 4].zip [(1 : ℚ), 2, 4].tail).map fun p => LogVal.fin (p.2 / p.1)).length =
        [(1 : ℚ), 2, 4].length - 1)) ∧
    ((∃ p ∈ [(1 : ℚ), -1].zip [(1 : ℚ), -1].tail, logRatio p.1 p.2 = .nan) ∧
      compute_log_returns [1, -1] = .error .valueError) :=
  ⟨⟨by norm_num, (compute_log_returns_spec [1, 2, 4]).1 (by norm_num)⟩,
   ⟨⟨(1, -1), by simp, by norm_num [logRatio]⟩,
    (compute_log_returns_spec [1, -1]).2 ⟨(1, -1), by simp, by norm_num [logRatio]⟩⟩⟩
